import Mathlib

/-!
Verification development for the question-answering bot in src/bot.py.

The embedding models the four core functions of the source file:

* `load_qa_data` — loads the Q&A table into the in-memory cache.  The external
  spreadsheet API (gspread) is modelled by `FetchResult`: the connection or the
  retrieval may fail, or a list of raw records is returned.  A raw record's
  cells may hold text, a number or a boolean (`Cell`), mirroring what
  `get_all_records()` can produce; calling `.upper()` on a non-string cell
  raises `AttributeError` in Python, modelled by `pyUpper` returning `none`.
  Crucially, the source mutates the global `qa_data` in place (reset to `[]`,
  then appended to) before the loop can raise, which the model reproduces.
* `find_best_answer` — the matching engine.  The fuzzy similarity function
  `fuzz.partial_ratio` comes from the external fuzzywuzzy library (not part of
  this repository), so it is modelled as an explicit parameter `pr`; theorems
  that need one of its documented properties (scores are at most 100; an
  exact or substring match scores 100) take that property as a hypothesis.
  Scores are rationals: the Python ints and the `answer_score * 0.7` float
  are modelled exactly in ℚ.
* `refresh_cache_if_needed` — the staleness policy around `load_qa_data`.
* `save_question_request` — the escalation append.  Each gspread call on the
  executed path (connect, open, add_worksheet, the two append_row calls) can
  independently fail, modelled by the `StoreApi` flags.

Strings are modelled as `List Char`; `lowerStr`, `upperStr` and `trimL` model
Python's `str.lower`, `str.upper` and `str.strip` (ASCII case mapping).
-/

abbrev Str := List Char

def lowerStr (s : Str) : Str := s.map Char.toLower

def upperStr (s : Str) : Str := s.map Char.toUpper

def trimL (s : Str) : Str :=
  ((s.dropWhile Char.isWhitespace).reverse.dropWhile Char.isWhitespace).reverse

structure QAItem where
  question : Str
  answer : Str
  keywords : Str
  category : Str
  deriving DecidableEq

inductive Cell where
  | str (s : Str)
  | int (n : Int)
  | boolV (b : Bool)
  deriving DecidableEq

/-- Python `str(x)` on a cell value (total, never raises). -/
def pyStr : Cell → Str
  | Cell.str s => s
  | Cell.int n => (toString n).data
  | Cell.boolV true => ['T', 'r', 'u', 'e']
  | Cell.boolV false => ['F', 'a', 'l', 's', 'e']

/-- Python `x.upper()` on a cell value: raises `AttributeError` (modelled as
`none`) unless the cell holds a string. -/
def pyUpper : Cell → Option Str
  | Cell.str s => some (upperStr s)
  | _ => none

/-- A raw mapping as returned by `sheet.get_all_records()`.  A key missing
from the sheet is represented by `Cell.str []`, matching the `record.get(k,
'')` defaults in the source. -/
structure RawRecord where
  question : Cell
  answer : Cell
  keywords : Cell
  category : Cell
  active : Cell
  deriving DecidableEq

def trueMarker : Str := ['T', 'R', 'U', 'E']

/-- Whether evaluating `record.get('Active', '').upper()` succeeds. -/
def parses (r : RawRecord) : Bool :=
  match r.active with
  | Cell.str _ => true
  | _ => false

/-- The source's activity test `record.get('Active', '').upper() == 'TRUE'`. -/
def isActive (r : RawRecord) : Bool :=
  match pyUpper r.active with
  | some u => u == trueMarker
  | none => false

/-- The dict built and appended for an active record (all fields
`str(...).strip()`-ed). -/
def mkItem (r : RawRecord) : QAItem :=
  ⟨trimL (pyStr r.question), trimL (pyStr r.answer),
    trimL (pyStr r.keywords), trimL (pyStr r.category)⟩

/-- The record loop of `load_qa_data`.  `acc` is the list the global
`qa_data` has been rebuilt to so far; the `Bool` is `false` when the
`.upper()` call raised mid-loop, in which case `acc` is the partial list the
global holds at that moment. -/
def processRecords : List RawRecord → List QAItem → List QAItem × Bool
  | [], acc => (acc, true)
  | r :: rs, acc =>
    match pyUpper r.active with
    | none => (acc, false)
    | some u =>
      if u == trueMarker then processRecords rs (acc ++ [mkItem r])
      else processRecords rs acc

/-- The two module-level globals of src/bot.py. -/
structure BotState where
  qa_data : List QAItem
  last_updated : ℚ
  deriving DecidableEq

/-- Outcome of the spreadsheet interaction inside `load_qa_data`:
`connectFail` models `connect_to_sheets()` returning `None`; `retrieveFail`
models `client.open(...)` or `sheet.get_all_records()` raising (both happen
before the global `qa_data` is touched); `records rs` models a successful
retrieval of the raw rows. -/
inductive FetchResult where
  | connectFail
  | retrieveFail
  | records (rs : List RawRecord)
  deriving DecidableEq

def CACHE_DURATION : ℚ := 300

/-- `load_qa_data()`.  Returns the updated global state and the function's
boolean result.  On `records rs`, the loop rebuilds `qa_data` in place; if a
record's `Active` cell is not a string the `.upper()` call raises, the outer
`except` catches it and returns `False`, leaving `qa_data` holding the
partially rebuilt list and `last_updated` untouched. -/
def load_qa_data (fetch : FetchResult) (now : ℚ) (s : BotState) : BotState × Bool :=
  match fetch with
  | FetchResult.connectFail => (s, false)
  | FetchResult.retrieveFail => (s, false)
  | FetchResult.records rs =>
    match processRecords rs [] with
    | (items, true) => (⟨items, now⟩, true)
    | (items, false) => (⟨items, s.last_updated⟩, false)

/-- `refresh_cache_if_needed()`.  The `Bool` records whether the underlying
`load_qa_data()` fetch was attempted. -/
def refresh_cache_if_needed (fetch : FetchResult) (now : ℚ) (s : BotState) :
    BotState × Bool :=
  if CACHE_DURATION < now - s.last_updated then ((load_qa_data fetch now s).1, true)
  else (s, false)

/-- The per-record score from the loop body of `find_best_answer`:
`max(question_score, keywords_score, answer_score * 0.7)`, with the keywords
score left at `0` when the record's keywords string is empty (falsy). -/
def overallScore (pr : Str → Str → ℚ) (query : Str) (item : QAItem) : ℚ :=
  let question_score := pr query (lowerStr item.question)
  let keywords_score : ℚ :=
    if item.keywords.isEmpty then 0 else pr query (lowerStr item.keywords)
  let answer_score := pr query (lowerStr item.answer)
  max question_score (max keywords_score (answer_score * (7 / 10)))

/-- The running-maximum loop of `find_best_answer`: state is
`(best_match, best_score)`, updated when
`overall_score > best_score and overall_score > 60`. -/
def fbaLoop (pr : Str → Str → ℚ) (query : Str) :
    List QAItem → Option QAItem × ℚ → Option QAItem × ℚ
  | [], st => st
  | item :: rest, st =>
    if st.2 < overallScore pr query item ∧ 60 < overallScore pr query item then
      fbaLoop pr query rest (some item, overallScore pr query item)
    else fbaLoop pr query rest st

/-- `find_best_answer(user_query)` over an explicit snapshot.  The query is
normalized by `user_query.lower().strip()`; the loop starts from
`best_match = None, best_score = 0`. -/
def find_best_answer (pr : Str → Str → ℚ) (qa_data : List QAItem)
    (user_query : Str) : Option QAItem :=
  match qa_data with
  | [] => none
  | _ => (fbaLoop pr (trimL (lowerStr user_query)) qa_data (none, (0 : ℚ))).1

/-- `find_best_answer` as a transition on the global state: the source
function only reads the globals, so the state component is returned as
received. -/
def find_best_answer_state (pr : Str → Str → ℚ) (user_query : Str)
    (s : BotState) : BotState × Option QAItem :=
  (s, find_best_answer pr s.qa_data user_query)

/-- The claim-side score formula of the spec, written from its words:
`overall = max(question_score, keywords_score, 0.7 * answer_score)` where each
component scores the lowercased, trimmed query against the lowercased record
field and the keywords component is 0 for an empty keywords field. -/
def specOverallScore (pr : Str → Str → ℚ) (user_query : Str) (item : QAItem) : ℚ :=
  max (pr (trimL (lowerStr user_query)) (lowerStr item.question))
    (max (if item.keywords = [] then 0
          else pr (trimL (lowerStr user_query)) (lowerStr item.keywords))
      ((7 / 10) * pr (trimL (lowerStr user_query)) (lowerStr item.answer)))

def escalationHeader : List Str :=
  [['T', 'i', 'm', 'e', 's', 't', 'a', 'm', 'p'],
   ['Q', 'u', 'e', 's', 't', 'i', 'o', 'n'],
   ['U', 's', 'e', 'r', ' ', 'I', 'D'],
   ['U', 's', 'e', 'r', ' ', 'N', 'a', 'm', 'e'],
   ['S', 't', 'a', 't', 'u', 's'],
   ['A', 'd', 'm', 'i', 'n', ' ', 'N', 'o', 't', 'e', 's']]

/-- The row `[timestamp, question, user_id, user_name, "New", ""]` appended by
`save_question_request`. -/
def escalationRow (timestamp question user_id user_name : Str) : List Str :=
  [timestamp, question, user_id, user_name, ['N', 'e', 'w'], []]

/-- Success flags for the gspread calls made by `save_question_request`, in
program order: `connect_to_sheets`, `client.open`, `add_worksheet`, the
header `append_row`, and the request-row `append_row`. -/
structure StoreApi where
  connect_ok : Bool
  open_ok : Bool
  add_worksheet_ok : Bool
  header_append_ok : Bool
  row_append_ok : Bool
  deriving DecidableEq

/-- `save_question_request(question, user_id, user_name)`.  The escalation
table is `none` when the "Requests" worksheet does not exist; on that path the
worksheet is created, the header row appended, then the request row.  Any
raising call is caught by the outer `except`, which returns `False`; calls
after a failing one never run, and nothing is retried. -/
def save_question_request (api : StoreApi) (timestamp question user_id user_name : Str)
    (requests : Option (List (List Str))) : Option (List (List Str)) × Bool :=
  if api.connect_ok = false then (requests, false)
  else if api.open_ok = false then (requests, false)
  else
    match requests with
    | some rows =>
      if api.row_append_ok then
        (some (rows ++ [escalationRow timestamp question user_id user_name]), true)
      else (some rows, false)
    | none =>
      if api.add_worksheet_ok = false then (none, false)
      else if api.header_append_ok = false then (some [], false)
      else if api.row_append_ok then
        (some [escalationHeader, escalationRow timestamp question user_id user_name], true)
      else (some [escalationHeader], false)

def apiAllOk : StoreApi := ⟨true, true, true, true, true⟩

/-- Fixture: a previously cached record. -/
def item0 : QAItem := ⟨['q'], ['a'], [], []⟩

/-- Fixture: a record with a non-empty keywords field. -/
def itemA : QAItem := ⟨['h', 'i'], ['y', 'o'], ['k'], []⟩

/-- Fixture: question "Hi". -/
def itemHi : QAItem := ⟨['H', 'i'], ['a'], [], []⟩

/-- Fixture: an active raw record (Active cell "true", matched
case-insensitively). -/
def goodRecord : RawRecord :=
  ⟨Cell.str ['Q', '1'], Cell.str ['A', '1'], Cell.str [], Cell.str [],
    Cell.str ['t', 'r', 'u', 'e']⟩

/-- Fixture: a raw record whose Active cell holds the integer 1, on which
Python's `.upper()` raises `AttributeError`. -/
def badRecord : RawRecord :=
  ⟨Cell.str ['Q', '2'], Cell.str ['A', '2'], Cell.str [], Cell.str [], Cell.int 1⟩

/-- Fixture: an inactive raw record. -/
def inactiveRecord : RawRecord :=
  ⟨Cell.str ['Q', '3'], Cell.str ['A', '3'], Cell.str [], Cell.str [],
    Cell.str ['n', 'o']⟩

/-! ## Helper lemmas about the matching loop -/

theorem fbaLoop_append (pr : Str → Str → ℚ) (q : Str) (l1 l2 : List QAItem)
    (st : Option QAItem × ℚ) :
    fbaLoop pr q (l1 ++ l2) st = fbaLoop pr q l2 (fbaLoop pr q l1 st) := by
  induction l1 generalizing st with
  | nil => rfl
  | cons a l ih =>
    by_cases h : st.2 < overallScore pr q a ∧ 60 < overallScore pr q a
    · simp only [List.cons_append, fbaLoop, if_pos h]
      exact ih _
    · simp only [List.cons_append, fbaLoop, if_neg h]
      exact ih _

theorem fbaLoop_no_update (pr : Str → Str → ℚ) (q : Str) (l : List QAItem)
    (st : Option QAItem × ℚ)
    (h : ∀ x ∈ l, ¬(st.2 < overallScore pr q x ∧ 60 < overallScore pr q x)) :
    fbaLoop pr q l st = st := by
  revert h
  induction l with
  | nil => intro _; rfl
  | cons a l ih =>
    intro h
    simp only [fbaLoop, if_neg (h a (List.mem_cons_self a l))]
    exact ih fun x hx => h x (List.mem_cons_of_mem a hx)

theorem fbaLoop_score_lt (pr : Str → Str → ℚ) (q : Str) (v : ℚ) (l : List QAItem) :
    ∀ st : Option QAItem × ℚ, st.2 < v → (∀ x ∈ l, overallScore pr q x < v) →
      (fbaLoop pr q l st).2 < v := by
  induction l with
  | nil => intro st h1 _; exact h1
  | cons a l ih =>
    intro st h1 h2
    by_cases h : st.2 < overallScore pr q a ∧ 60 < overallScore pr q a
    · simp only [fbaLoop, if_pos h]
      exact ih _ (h2 a (List.mem_cons_self a l)) fun x hx => h2 x (List.mem_cons_of_mem a hx)
    · simp only [fbaLoop, if_neg h]
      exact ih _ h1 fun x hx => h2 x (List.mem_cons_of_mem a hx)

theorem fbaLoop_mem (pr : Str → Str → ℚ) (q : Str) (l : List QAItem) :
    ∀ (st : Option QAItem × ℚ) (r : QAItem), (fbaLoop pr q l st).1 = some r →
      st.1 = some r ∨ (r ∈ l ∧ 60 < overallScore pr q r) := by
  induction l with
  | nil => intro st r h; exact Or.inl h
  | cons a l ih =>
    intro st r h
    by_cases hc : st.2 < overallScore pr q a ∧ 60 < overallScore pr q a
    · simp only [fbaLoop, if_pos hc] at h
      rcases ih _ r h with h1 | h2
      · have ha : a = r := Option.some.inj h1
        subst ha
        exact Or.inr ⟨List.mem_cons_self a l, hc.2⟩
      · exact Or.inr ⟨List.mem_cons_of_mem a h2.1, h2.2⟩
    · simp only [fbaLoop, if_neg hc] at h
      rcases ih _ r h with h1 | h2
      · exact Or.inl h1
      · exact Or.inr ⟨List.mem_cons_of_mem a h2.1, h2.2⟩

theorem fbaLoop_inv (pr : Str → Str → ℚ) (q : Str) (l : List QAItem) :
    ∀ st : Option QAItem × ℚ,
      (∀ x : QAItem, st.1 = some x → st.2 = overallScore pr q x ∧ 60 < st.2) →
      ∀ r : QAItem, (fbaLoop pr q l st).1 = some r →
        (fbaLoop pr q l st).2 = overallScore pr q r ∧ 60 < (fbaLoop pr q l st).2 := by
  induction l with
  | nil => intro st h r hr; exact h r hr
  | cons a l ih =>
    intro st h r hr
    by_cases hc : st.2 < overallScore pr q a ∧ 60 < overallScore pr q a
    · simp only [fbaLoop, if_pos hc] at hr ⊢
      refine ih _ ?_ r hr
      intro x hx
      obtain rfl : a = x := Option.some.inj hx
      exact ⟨rfl, hc.2⟩
    · simp only [fbaLoop, if_neg hc] at hr ⊢
      exact ih _ h r hr

theorem fbaLoop_winner (pr : Str → Str → ℚ) (q : Str) (l1 l2 : List QAItem) (r : QAItem)
    (hr : 60 < overallScore pr q r)
    (h1 : ∀ x ∈ l1, overallScore pr q x < overallScore pr q r)
    (h2 : ∀ x ∈ l2, overallScore pr q x ≤ overallScore pr q r) :
    fbaLoop pr q (l1 ++ r :: l2) (none, (0 : ℚ)) = (some r, overallScore pr q r) := by
  rw [fbaLoop_append]
  have hlt : (fbaLoop pr q l1 (none, (0 : ℚ))).2 < overallScore pr q r :=
    fbaLoop_score_lt pr q (overallScore pr q r) l1 (none, (0 : ℚ))
      (by show (0 : ℚ) < overallScore pr q r; linarith) h1
  have hcond : (fbaLoop pr q l1 (none, (0 : ℚ))).2 < overallScore pr q r ∧
      60 < overallScore pr q r := ⟨hlt, hr⟩
  have hstep : fbaLoop pr q (r :: l2) (fbaLoop pr q l1 (none, (0 : ℚ))) =
      fbaLoop pr q l2 (some r, overallScore pr q r) := by
    simp only [fbaLoop]
    rw [if_pos hcond]
  rw [hstep]
  exact fbaLoop_no_update pr q l2 _
    fun x hx hcon => absurd hcon.1 (not_lt.mpr (h2 x hx))

theorem find_best_answer_eq_loop (pr : Str → Str → ℚ) (qa : List QAItem) (uq : Str)
    (h : qa ≠ []) :
    find_best_answer pr qa uq =
      (fbaLoop pr (trimL (lowerStr uq)) qa (none, (0 : ℚ))).1 := by
  cases qa with
  | nil => exact absurd rfl h
  | cons a l => rfl

theorem fba_single (pr : Str → Str → ℚ) (uq : Str) (item : QAItem)
    (h : 60 < overallScore pr (trimL (lowerStr uq)) item) :
    find_best_answer pr [item] uq = some item := by
  have h0 : (0 : ℚ) < overallScore pr (trimL (lowerStr uq)) item := by linarith
  have hcond : ((none, (0 : ℚ)) : Option QAItem × ℚ).2 <
      overallScore pr (trimL (lowerStr uq)) item ∧
      60 < overallScore pr (trimL (lowerStr uq)) item := ⟨h0, h⟩
  show (fbaLoop pr (trimL (lowerStr uq)) [item] (none, (0 : ℚ))).1 = some item
  simp only [fbaLoop]
  rw [if_pos hcond]

theorem overallScore_le_100 (pr : Str → Str → ℚ) (hub : ∀ a b : Str, pr a b ≤ 100)
    (q : Str) (item : QAItem) : overallScore pr q item ≤ 100 := by
  have ha := hub q (lowerStr item.answer)
  have h7 : pr q (lowerStr item.answer) * (7 / 10) ≤ 100 := by linarith
  simp only [overallScore]
  apply max_le (hub q (lowerStr item.question))
  apply max_le _ h7
  by_cases hk : item.keywords.isEmpty
  · rw [if_pos hk]; norm_num
  · rw [if_neg hk]; exact hub q (lowerStr item.keywords)

theorem trimL_decomp (l : Str) : ∃ u v, l = u ++ trimL l ++ v := by
  refine ⟨l.takeWhile Char.isWhitespace,
    ((l.dropWhile Char.isWhitespace).reverse.takeWhile Char.isWhitespace).reverse, ?_⟩
  have h1 := List.takeWhile_append_dropWhile Char.isWhitespace l
  have h2 := List.takeWhile_append_dropWhile Char.isWhitespace
    (l.dropWhile Char.isWhitespace).reverse
  have h3 := congrArg List.reverse h2
  rw [List.reverse_append, List.reverse_reverse] at h3
  have h4 : l.dropWhile Char.isWhitespace = trimL l ++
      ((l.dropWhile Char.isWhitespace).reverse.takeWhile Char.isWhitespace).reverse := by
    unfold trimL
    exact h3.symm
  calc l = l.takeWhile Char.isWhitespace ++ l.dropWhile Char.isWhitespace := h1.symm
    _ = l.takeWhile Char.isWhitespace ++ (trimL l ++
        ((l.dropWhile Char.isWhitespace).reverse.takeWhile Char.isWhitespace).reverse) := by
        rw [← h4]
    _ = l.takeWhile Char.isWhitespace ++ trimL l ++
        ((l.dropWhile Char.isWhitespace).reverse.takeWhile Char.isWhitespace).reverse := by
        rw [List.append_assoc]

/-! ## Helper lemmas about loading and refreshing -/

theorem processRecords_ok (rs : List RawRecord) :
    ∀ acc : List QAItem, (∀ r ∈ rs, parses r = true) →
      processRecords rs acc = (acc ++ (rs.filter isActive).map mkItem, true) := by
  induction rs with
  | nil => intro acc _; simp [processRecords]
  | cons r rs ih =>
    intro acc h
    have hr := h r (List.mem_cons_self r rs)
    cases hcell : r.active with
    | str s =>
      cases ht : upperStr s == trueMarker with
      | true =>
        have hact : isActive r = true := by simp [isActive, pyUpper, hcell, ht]
        have hstep : processRecords (r :: rs) acc = processRecords rs (acc ++ [mkItem r]) := by
          simp [processRecords, pyUpper, hcell, ht]
        rw [hstep, ih (acc ++ [mkItem r]) fun x hx => h x (List.mem_cons_of_mem r hx)]
        rw [List.filter_cons_of_pos hact]
        simp [List.append_assoc]
      | false =>
        have hact : isActive r = false := by simp [isActive, pyUpper, hcell, ht]
        have hstep : processRecords (r :: rs) acc = processRecords rs acc := by
          simp [processRecords, pyUpper, hcell, ht]
        rw [hstep, ih acc fun x hx => h x (List.mem_cons_of_mem r hx)]
        rw [List.filter_cons_of_neg (by simp [hact])]
    | int n => simp [parses, hcell] at hr
    | boolV b => simp [parses, hcell] at hr

theorem load_qa_data_success_last (f : FetchResult) (now : ℚ) (s : BotState)
    (h : (load_qa_data f now s).2 = true) :
    (load_qa_data f now s).1.last_updated = now := by
  cases f with
  | connectFail => exact absurd h (by simp [load_qa_data])
  | retrieveFail => exact absurd h (by simp [load_qa_data])
  | records rs =>
    simp only [load_qa_data] at h ⊢
    rcases hp : processRecords rs [] with ⟨items, ok⟩
    rw [hp] at h
    cases ok
    · exact Bool.noConfusion h
    · rfl

theorem load_qa_data_failure_last (f : FetchResult) (now : ℚ) (s : BotState)
    (h : (load_qa_data f now s).2 = false) :
    (load_qa_data f now s).1.last_updated = s.last_updated := by
  cases f with
  | connectFail => rfl
  | retrieveFail => rfl
  | records rs =>
    simp only [load_qa_data] at h ⊢
    rcases hp : processRecords rs [] with ⟨items, ok⟩
    rw [hp] at h
    cases ok
    · rfl
    · exact Bool.noConfusion h

theorem refresh_pos (f : FetchResult) (now : ℚ) (s : BotState)
    (h : CACHE_DURATION < now - s.last_updated) :
    refresh_cache_if_needed f now s = ((load_qa_data f now s).1, true) := by
  rw [refresh_cache_if_needed, if_pos h]

theorem refresh_neg (f : FetchResult) (now : ℚ) (s : BotState)
    (h : ¬CACHE_DURATION < now - s.last_updated) :
    refresh_cache_if_needed f now s = (s, false) := by
  rw [refresh_cache_if_needed, if_neg h]

/-! ## Claims -/

/-- Claim C1 (evaluation at the failing input): the claim says a failed
`load_qa_data` leaves the previous `qa_data` snapshot exactly as it was.  The
code violates this: with a previous snapshot `[item0]`, fetching
`[goodRecord, badRecord]` (where `badRecord`'s Active cell is the integer 1,
so `.upper()` raises mid-loop) returns the error value `False` and leaves
`last_updated` untouched, but the global `qa_data` has already been reset and
partially repopulated to `[mkItem goodRecord]`, losing the previous
snapshot. -/
theorem C1_parse_failure_clobbers_snapshot :
    (load_qa_data (FetchResult.records [goodRecord, badRecord]) 400 ⟨[item0], 0⟩).2 = false ∧
    (load_qa_data (FetchResult.records [goodRecord, badRecord]) 400
      ⟨[item0], 0⟩).1.last_updated = 0 ∧
    (load_qa_data (FetchResult.records [goodRecord, badRecord]) 400
      ⟨[item0], 0⟩).1.qa_data = [mkItem goodRecord] ∧
    (load_qa_data (FetchResult.records [goodRecord, badRecord]) 400
      ⟨[item0], 0⟩).1.qa_data ≠ [item0] :=
  ⟨by decide, rfl, by decide, by decide⟩

/-- Claim C2: `find_best_answer` returns a record only if its overall score is
strictly greater than 60; a record scoring exactly 60 is never returned; a
record scoring 61 is returned when it is the (first) maximum; when no record
exceeds 60 — and for an empty snapshot — the result is `none`. -/
theorem C2_threshold_strict (pr : Str → Str → ℚ) (uq : Str) (qa : List QAItem) :
    (∀ r : QAItem, find_best_answer pr qa uq = some r →
      60 < overallScore pr (trimL (lowerStr uq)) r) ∧
    (∀ r : QAItem, overallScore pr (trimL (lowerStr uq)) r = 60 →
      find_best_answer pr qa uq ≠ some r) ∧
    (∀ (l1 l2 : List QAItem) (r : QAItem), qa = l1 ++ r :: l2 →
      overallScore pr (trimL (lowerStr uq)) r = 61 →
      (∀ x ∈ l1, overallScore pr (trimL (lowerStr uq)) x < 61) →
      (∀ x ∈ l2, overallScore pr (trimL (lowerStr uq)) x ≤ 61) →
      find_best_answer pr qa uq = some r) ∧
    ((∀ r ∈ qa, overallScore pr (trimL (lowerStr uq)) r ≤ 60) →
      find_best_answer pr qa uq = none) ∧
    find_best_answer pr [] uq = none := by
  have hpart1 : ∀ r : QAItem, find_best_answer pr qa uq = some r →
      60 < overallScore pr (trimL (lowerStr uq)) r := by
    intro r h
    cases qa with
    | nil => exact absurd h (by simp [find_best_answer])
    | cons a l =>
      have h2 : (fbaLoop pr (trimL (lowerStr uq)) (a :: l) (none, (0 : ℚ))).1 = some r := h
      rcases fbaLoop_mem pr (trimL (lowerStr uq)) (a :: l) _ r h2 with h3 | h3
      · exact absurd h3 (by simp)
      · exact h3.2
  refine ⟨hpart1, ?_, ?_, ?_, rfl⟩
  · intro r h60 hsome
    have hgt := hpart1 r hsome
    rw [h60] at hgt
    exact lt_irrefl _ hgt
  · intro l1 l2 r hqa h61 hl1 hl2
    subst hqa
    rw [find_best_answer_eq_loop pr (l1 ++ r :: l2) uq (by simp)]
    rw [fbaLoop_winner pr (trimL (lowerStr uq)) l1 l2 r (by rw [h61]; norm_num)
      (fun x hx => by rw [h61]; exact hl1 x hx)
      (fun x hx => by rw [h61]; exact hl2 x hx)]
  · intro hle
    cases qa with
    | nil => rfl
    | cons a l =>
      have h2 : fbaLoop pr (trimL (lowerStr uq)) (a :: l) (none, (0 : ℚ)) =
          (none, (0 : ℚ)) := by
        apply fbaLoop_no_update
        intro x hx hcon
        exact absurd hcon.2 (not_lt.mpr (hle x hx))
      show (fbaLoop pr (trimL (lowerStr uq)) (a :: l) (none, (0 : ℚ))).1 = none
      rw [h2]

/-- Claim C2 witness: with a constant similarity of 61 the single record
(scoring exactly 61) is returned; with a constant similarity of 0 every
record scores at most 60 and nothing is returned. -/
theorem C2_threshold_strict_witness :
    find_best_answer (fun _ _ => (61 : ℚ)) [itemA] ['h', 'i'] = some itemA ∧
    find_best_answer (fun _ _ => (0 : ℚ)) [itemA] ['h', 'i'] = none := by
  constructor
  · exact (C2_threshold_strict (fun _ _ => 61) ['h', 'i'] [itemA]).2.2.1 [] [] itemA rfl
      (by norm_num [overallScore, itemA]) (by simp) (by simp)
  · exact (C2_threshold_strict (fun _ _ => 0) ['h', 'i'] [itemA]).2.2.2.1
      (by intro r hr
          simp only [List.mem_singleton] at hr
          subst hr
          norm_num [overallScore, itemA])

/-- Claim C3: for every record, the overall score computed by the matching
loop equals `max(question_score, keywords_score, 0.7 * answer_score)`, each
component scoring the lowercased, trimmed query against the lowercased record
field, with the keywords component 0 exactly when the keywords field is
empty (`specOverallScore` is that formula written from the spec's words). -/
theorem C3_overall_score_formula (pr : Str → Str → ℚ) (uq : Str) (item : QAItem) :
    overallScore pr (trimL (lowerStr uq)) item = specOverallScore pr uq item := by
  cases hk : item.keywords with
  | nil => simp [overallScore, specOverallScore, hk, mul_comm]
  | cons c cs => simp [overallScore, specOverallScore, hk, mul_comm]

/-- Claim C4: for non-empty queries and snapshots, `find_best_answer` returns
`none` or a record that is an element of the snapshot; and a successful
`load_qa_data` builds the snapshot as exactly the records whose Active flag
matches the affirmative marker case-insensitively (`isActive`), each with all
text fields trimmed (`mkItem`), so no inactive record ever enters it. -/
theorem C4_result_from_snapshot (pr : Str → Str → ℚ) (uq : Str) (qa : List QAItem)
    (hq : uq ≠ []) (hqa : qa ≠ []) :
    (find_best_answer pr qa uq = none ∨
      ∃ r, r ∈ qa ∧ find_best_answer pr qa uq = some r) ∧
    (∀ (rs : List RawRecord) (now : ℚ) (s : BotState),
      (∀ rec ∈ rs, parses rec = true) →
      (load_qa_data (FetchResult.records rs) now s).2 = true ∧
      (load_qa_data (FetchResult.records rs) now s).1.qa_data =
        (rs.filter isActive).map mkItem ∧
      ∀ item ∈ (load_qa_data (FetchResult.records rs) now s).1.qa_data,
        ∃ rec, rec ∈ rs ∧ isActive rec = true ∧ item = mkItem rec) := by
  constructor
  · cases hfind : find_best_answer pr qa uq with
    | none => exact Or.inl rfl
    | some r =>
      refine Or.inr ⟨r, ?_, rfl⟩
      cases qa with
      | nil => exact absurd rfl hqa
      | cons a l =>
        rcases fbaLoop_mem pr (trimL (lowerStr uq)) (a :: l) _ r hfind with h3 | h3
        · exact absurd h3 (by simp)
        · exact h3.1
  · intro rs now s hparse
    have hp := processRecords_ok rs [] hparse
    have hl : load_qa_data (FetchResult.records rs) now s =
        (⟨(rs.filter isActive).map mkItem, now⟩, true) := by
      simp only [load_qa_data]
      rw [hp]
      simp
    refine ⟨by rw [hl], by rw [hl], ?_⟩
    intro item hmem
    rw [hl] at hmem
    have hmem2 : item ∈ (rs.filter isActive).map mkItem := hmem
    rw [List.mem_map] at hmem2
    obtain ⟨rec, hrec, heq⟩ := hmem2
    rw [List.mem_filter] at hrec
    exact ⟨rec, hrec.1, hrec.2, heq.symm⟩

/-- Claim C4 witness: loading two parseable raw records, one active and one
inactive, yields the snapshot holding exactly the active one. -/
theorem C4_result_from_snapshot_witness :
    (load_qa_data (FetchResult.records [goodRecord, inactiveRecord]) 400
      ⟨[], 0⟩).1.qa_data = [mkItem goodRecord] := by
  have h := (C4_result_from_snapshot (fun _ _ => (0 : ℚ)) ['x'] [item0] (by decide)
    (by decide)).2 [goodRecord, inactiveRecord] 400 ⟨[], 0⟩ (by decide)
  rw [h.2.1]
  decide

/-- Claim C5 counterexample: the claim as stated — two `ensure_fresh` calls
within the staleness window trigger at most one underlying fetch — fails when
the first triggered fetch errors out: with `last_updated = 0`, calls at
t = 301 and t = 302 (one second apart, well within the 300-second window)
both attempt the store fetch, because the failed first fetch left the
timestamp unchanged. -/
theorem C5_staleness_cex :
    (302 : ℚ) - 301 ≤ CACHE_DURATION ∧
    (refresh_cache_if_needed FetchResult.retrieveFail 301 ⟨[], 0⟩).2 = true ∧
    (refresh_cache_if_needed FetchResult.retrieveFail 302
      (refresh_cache_if_needed FetchResult.retrieveFail 301 ⟨[], 0⟩).1).2 = true := by
  have h1 : refresh_cache_if_needed FetchResult.retrieveFail 301 (⟨[], 0⟩ : BotState) =
      ((⟨[], 0⟩ : BotState), true) := by
    rw [refresh_pos FetchResult.retrieveFail 301 ⟨[], 0⟩ (by norm_num [CACHE_DURATION])]
    rfl
  refine ⟨by norm_num [CACHE_DURATION], by rw [h1], ?_⟩
  rw [h1]
  rw [refresh_pos FetchResult.retrieveFail 302 ⟨[], 0⟩ (by norm_num [CACHE_DURATION])]

/-- Claim C5 (amended): `refresh_cache_if_needed` attempts the underlying
fetch only when now − last_updated exceeds the 300-second window; two calls
within the window trigger at most one fetch provided the fetch triggered by
the first call succeeds; refresh errors are swallowed — the call returns
normally, the timestamp is unchanged on any failure, and on a retrieval
failure the whole state is unchanged. -/
theorem C5_staleness_amended (f f2 : FetchResult) (t1 t2 : ℚ) (s : BotState) :
    ((refresh_cache_if_needed f t1 s).2 = true → CACHE_DURATION < t1 - s.last_updated) ∧
    ((refresh_cache_if_needed f t1 s).2 = true → (load_qa_data f t1 s).2 = true →
      t2 - t1 ≤ CACHE_DURATION →
      (refresh_cache_if_needed f2 t2 (refresh_cache_if_needed f t1 s).1).2 = false) ∧
    ((load_qa_data f t1 s).2 = false →
      (refresh_cache_if_needed f t1 s).1.last_updated = s.last_updated ∧
      ((f = FetchResult.connectFail ∨ f = FetchResult.retrieveFail) →
        (refresh_cache_if_needed f t1 s).1 = s)) := by
  by_cases hc : CACHE_DURATION < t1 - s.last_updated
  · refine ⟨fun _ => hc, ?_, ?_⟩
    · intro _ hload ht2
      rw [refresh_pos f t1 s hc]
      have hlast : (load_qa_data f t1 s).1.last_updated = t1 :=
        load_qa_data_success_last f t1 s hload
      rw [refresh_neg f2 t2 (load_qa_data f t1 s).1
        (by rw [hlast]; exact not_lt.mpr ht2)]
    · intro hload
      rw [refresh_pos f t1 s hc]
      constructor
      · exact load_qa_data_failure_last f t1 s hload
      · rintro (rfl | rfl) <;> rfl
  · refine ⟨?_, ?_, ?_⟩
    · intro h
      rw [refresh_neg f t1 s hc] at h
      exact absurd h (by simp)
    · intro h _ _
      rw [refresh_neg f t1 s hc] at h
      exact absurd h (by simp)
    · intro _
      rw [refresh_neg f t1 s hc]
      exact ⟨rfl, fun _ => rfl⟩

/-- Claim C5 (amended) witness: a successful refresh at t = 301 means the
call at t = 400 (within the window) performs no fetch; and a connection
failure at t = 301 leaves the state exactly as it was. -/
theorem C5_staleness_amended_witness :
    (refresh_cache_if_needed FetchResult.connectFail 400
      (refresh_cache_if_needed (FetchResult.records []) 301 ⟨[item0], 0⟩).1).2 = false ∧
    (refresh_cache_if_needed FetchResult.connectFail 301 ⟨[item0], 0⟩).1 =
      ⟨[item0], 0⟩ := by
  constructor
  · apply (C5_staleness_amended (FetchResult.records []) FetchResult.connectFail 301 400
      ⟨[item0], 0⟩).2.1
    · rw [refresh_pos (FetchResult.records []) 301 ⟨[item0], 0⟩
        (by norm_num [CACHE_DURATION])]
    · rfl
    · norm_num [CACHE_DURATION]
  · exact ((C5_staleness_amended FetchResult.connectFail FetchResult.connectFail 301 301
      ⟨[item0], 0⟩).2.2 rfl).2 (Or.inl rfl)

/-- Claim C6: against a store with no escalation table, a fully successful
`save_question_request` creates the table with the fixed 6-column header row
and then appends the single row `[timestamp, question, user_id, user_name,
"New", ""]`; the result is `false` exactly when one of the calls on the
executed path fails (no retry, the error is the return value); with the table
present, success appends exactly the one row. -/
theorem C6_escalation_append (api : StoreApi) (ts q uid uname : Str)
    (requests : Option (List (List Str))) :
    (requests = none → api.connect_ok = true → api.open_ok = true →
      api.add_worksheet_ok = true → api.header_append_ok = true →
      api.row_append_ok = true →
      save_question_request api ts q uid uname requests =
        (some [escalationHeader, escalationRow ts q uid uname], true)) ∧
    ((save_question_request api ts q uid uname requests).2 = false ↔
      (api.connect_ok = false ∨ api.open_ok = false ∨ api.row_append_ok = false ∨
        (requests = none ∧
          (api.add_worksheet_ok = false ∨ api.header_append_ok = false)))) ∧
    (∀ rows, requests = some rows → api.connect_ok = true → api.open_ok = true →
      api.row_append_ok = true →
      save_question_request api ts q uid uname requests =
        (some (rows ++ [escalationRow ts q uid uname]), true)) := by
  obtain ⟨c, o, aw, hh, rp⟩ := api
  cases requests with
  | none =>
    cases c <;> cases o <;> cases aw <;> cases hh <;> cases rp <;>
      simp [save_question_request]
  | some rows =>
    cases c <;> cases o <;> cases rp <;>
      simp [save_question_request]

/-- Claim C6 witness: with every store call succeeding and no existing table,
the table is created holding exactly the header row followed by the new
request row, and the call reports success. -/
theorem C6_escalation_append_witness :
    save_question_request apiAllOk ['t'] ['q'] ['u'] ['n'] none =
      (some [escalationHeader, escalationRow ['t'] ['q'] ['u'] ['n']], true) :=
  (C6_escalation_append apiAllOk ['t'] ['q'] ['u'] ['n'] none).1 rfl rfl rfl rfl rfl rfl

/-- Claim C7: if the lowercased, trimmed query is character-for-character
identical to a record's question field compared case- and
surrounding-whitespace-insensitively, then — for any similarity function with
the documented fuzzy-matching properties (bounded by 100, and scoring 100
whenever the first string occurs contiguously inside the second) — that
record's overall score is 100, and `find_best_answer` returns it whenever no
earlier record in iteration order also scores 100. -/
theorem C7_exact_question_match (pr : Str → Str → ℚ)
    (hub : ∀ a b : Str, pr a b ≤ 100)
    (hsub : ∀ a b : Str, (∃ u v, b = u ++ a ++ v) → pr a b = 100)
    (uq : Str) (l1 l2 : List QAItem) (item : QAItem)
    (heq : trimL (lowerStr uq) = trimL (lowerStr item.question)) :
    overallScore pr (trimL (lowerStr uq)) item = 100 ∧
    ((∀ x ∈ l1, overallScore pr (trimL (lowerStr uq)) x ≠ 100) →
      find_best_answer pr (l1 ++ item :: l2) uq = some item) := by
  have hq100 : pr (trimL (lowerStr uq)) (lowerStr item.question) = 100 := by
    apply hsub
    obtain ⟨u, v, huv⟩ := trimL_decomp (lowerStr item.question)
    exact ⟨u, v, by rw [heq]; exact huv⟩
  have hover : overallScore pr (trimL (lowerStr uq)) item = 100 := by
    simp only [overallScore, hq100]
    apply max_eq_left
    apply max_le
    · by_cases hk : item.keywords.isEmpty
      · rw [if_pos hk]; norm_num
      · rw [if_neg hk]; exact hub _ _
    · have := hub (trimL (lowerStr uq)) (lowerStr item.answer)
      linarith
  refine ⟨hover, ?_⟩
  intro h100
  rw [find_best_answer_eq_loop pr (l1 ++ item :: l2) uq (by simp)]
  rw [fbaLoop_winner pr (trimL (lowerStr uq)) l1 l2 item (by rw [hover]; norm_num)
    (fun x hx => by
      rw [hover]
      exact lt_of_le_of_ne (overallScore_le_100 pr hub (trimL (lowerStr uq)) x) (h100 x hx))
    (fun x hx => by
      rw [hover]
      exact overallScore_le_100 pr hub (trimL (lowerStr uq)) x)]

/-- Claim C7 witness: a query differing from the stored question "Hi" only in
case and surrounding whitespace is matched, instantiating the similarity
function with the constant 100 (which satisfies both assumed properties). -/
theorem C7_exact_question_match_witness :
    find_best_answer (fun _ _ => (100 : ℚ)) [itemHi] [' ', 'h', 'I', ' '] =
      some itemHi := by
  have h := C7_exact_question_match (fun _ _ => (100 : ℚ))
    (fun _ _ => le_refl 100) (fun _ _ _ => rfl) [' ', 'h', 'I', ' '] [] [] itemHi
    (by decide)
  exact h.2 (by simp)

/-- Claim C8: appending records to the end of the snapshot leaves the
returned record unchanged provided none of the appended records scores
strictly higher than the winner (ties lose to the earlier record). -/
theorem C8_extension_monotone (pr : Str → Str → ℚ) (uq : Str) (qa ext : List QAItem)
    (r : QAItem) (hfind : find_best_answer pr qa uq = some r)
    (hext : ∀ e ∈ ext, overallScore pr (trimL (lowerStr uq)) e ≤
      overallScore pr (trimL (lowerStr uq)) r) :
    find_best_answer pr (qa ++ ext) uq = some r := by
  cases qa with
  | nil => exact absurd hfind (by simp [find_best_answer])
  | cons a l =>
    have h1 : (fbaLoop pr (trimL (lowerStr uq)) (a :: l) (none, (0 : ℚ))).1 = some r :=
      hfind
    have h2 := fbaLoop_inv pr (trimL (lowerStr uq)) (a :: l) (none, (0 : ℚ))
      (fun x hx => absurd hx (by simp)) r h1
    have hpair : fbaLoop pr (trimL (lowerStr uq)) (a :: l) (none, (0 : ℚ)) =
        (some r, overallScore pr (trimL (lowerStr uq)) r) :=
      Prod.ext h1 h2.1
    have h3 : find_best_answer pr ((a :: l) ++ ext) uq =
        (fbaLoop pr (trimL (lowerStr uq)) ((a :: l) ++ ext) (none, (0 : ℚ))).1 := rfl
    rw [h3, fbaLoop_append, hpair]
    rw [fbaLoop_no_update pr (trimL (lowerStr uq)) ext
      (some r, overallScore pr (trimL (lowerStr uq)) r)
      (fun x hx hcon => absurd hcon.1 (not_lt.mpr (hext x hx)))]

/-- Claim C8 witness: with a constant similarity of 65 the single-record
snapshot returns its record, and appending a further (tying) record leaves
the winner unchanged. -/
theorem C8_extension_monotone_witness :
    find_best_answer (fun _ _ => (65 : ℚ)) ([itemA] ++ [item0]) ['h', 'i'] =
      some itemA := by
  apply C8_extension_monotone (fun _ _ => (65 : ℚ)) ['h', 'i'] [itemA] [item0] itemA
  · exact fba_single (fun _ _ => (65 : ℚ)) ['h', 'i'] itemA
      (by norm_num [overallScore, itemA])
  · intro e he
    simp only [List.mem_singleton] at he
    subst he
    norm_num [overallScore, itemA, item0]

/-- Claim C9: `find_best_answer` is a pure read of the global state — it
returns the state (both `qa_data` and `last_updated`) unchanged, so a second
call on the resulting state gives the same answer. -/
theorem C9_find_pure (pr : Str → Str → ℚ) (uq : Str) (s : BotState) :
    (find_best_answer_state pr uq s).1 = s ∧
    (find_best_answer_state pr uq s).1.qa_data = s.qa_data ∧
    (find_best_answer_state pr uq s).1.last_updated = s.last_updated ∧
    (find_best_answer_state pr uq ((find_best_answer_state pr uq s).1)).2 =
      (find_best_answer_state pr uq s).2 :=
  ⟨rfl, rfl, rfl, rfl⟩

/-- Claim C10: `last_updated` is advanced (to the load time) only by a
successful load and is left unchanged by any failed one; it never decreases
while the clock moves forward; and after a triggered fetch that failed, the
very next `refresh_cache_if_needed` call attempts another fetch (no
backoff). -/
theorem C10_timestamp_monotone (f f2 : FetchResult) (now t2 : ℚ) (s : BotState) :
    ((load_qa_data f now s).2 = true → (load_qa_data f now s).1.last_updated = now) ∧
    ((load_qa_data f now s).2 = false →
      (load_qa_data f now s).1.last_updated = s.last_updated) ∧
    (s.last_updated ≤ now → s.last_updated ≤ (load_qa_data f now s).1.last_updated) ∧
    ((refresh_cache_if_needed f now s).2 = true → (load_qa_data f now s).2 = false →
      now ≤ t2 →
      (refresh_cache_if_needed f2 t2 (refresh_cache_if_needed f now s).1).2 = true) := by
  refine ⟨load_qa_data_success_last f now s, load_qa_data_failure_last f now s, ?_, ?_⟩
  · intro hle
    cases hb : (load_qa_data f now s).2 with
    | true => rw [load_qa_data_success_last f now s hb]; exact hle
    | false => rw [load_qa_data_failure_last f now s hb]
  · intro htrig hfail ht
    by_cases hc : CACHE_DURATION < now - s.last_updated
    · rw [refresh_pos f now s hc]
      have hl := load_qa_data_failure_last f now s hfail
      rw [refresh_pos f2 t2 (load_qa_data f now s).1 (by rw [hl]; linarith)]
    · rw [refresh_neg f now s hc] at htrig
      exact absurd htrig (by simp)

/-- Claim C10 witness: a failed load at t = 301 leaves the timestamp at 0,
and the next refresh call at t = 302 attempts the fetch again. -/
theorem C10_timestamp_monotone_witness :
    (load_qa_data FetchResult.retrieveFail 301 ⟨[item0], 0⟩).1.last_updated = 0 ∧
    (refresh_cache_if_needed FetchResult.retrieveFail 302
      (refresh_cache_if_needed FetchResult.retrieveFail 301 ⟨[item0], 0⟩).1).2 = true := by
  constructor
  · exact (C10_timestamp_monotone FetchResult.retrieveFail FetchResult.retrieveFail 301 302
      ⟨[item0], 0⟩).2.1 rfl
  · apply (C10_timestamp_monotone FetchResult.retrieveFail FetchResult.retrieveFail 301 302
      ⟨[item0], 0⟩).2.2.2
    · rw [refresh_pos FetchResult.retrieveFail 301 ⟨[item0], 0⟩
        (by norm_num [CACHE_DURATION])]
    · rfl
    · norm_num
